import Mathlib

/-!
Verification development for the CFP selection simulator.

The Python source is shallowly embedded over exact rationals.  Team names are
modelled as natural-number identifiers (the source only compares them for
equality); pandas DataFrames become lists of structures; Python dicts become
association lists.  Calls into external numeric libraries (scipy, numpy,
sklearn's linear solver and distribution functions) are modelled as an
explicit parameter record `NumLib`, since those routines live outside this
repository; every theorem below is quantified over that record.
-/

open List

/-- External numeric library surface used by the source (scipy / numpy).
`pow10 x` models `10 ** x`, `log10` models `np.log10`, `sqrt` models
`np.sqrt`, `normCdf` models `scipy.stats.norm.cdf`, `binomCdf k n p` models
`scipy.stats.binom.cdf(k, n, p)`, and `linSolve` models
`scipy.linalg.solve`, which may fail (modelled by `none`). -/
structure NumLib where
  pow10 : ℚ → ℚ
  log10 : ℚ → ℚ
  sqrt : ℚ → ℚ
  normCdf : ℚ → ℚ
  binomCdf : ℤ → ℕ → ℚ → ℚ
  linSolve : List (List ℚ) → List ℚ → Option (List ℚ)

/-- One game record (src/data fields used by the core). -/
structure Game where
  week : ℕ
  date : ℕ
  home_team : ℕ
  away_team : ℕ
  home_score : ℤ
  away_score : ℤ
  neutral_site : Bool
deriving DecidableEq

/-- Dictionary lookup with default, modelling Python `dict.get(k, d)` /
`dict[k]` on a dict holding the key. -/
def lookupD {β : Type} (r : List (ℕ × β)) (k : ℕ) (d : β) : β :=
  match r with
  | [] => d
  | p :: rest => if p.1 = k then p.2 else lookupD rest k d

/-- In-place value update for an association list, modelling `d[k] = v`
on a dict that already holds the key `k`. -/
def set_key (r : List (ℕ × ℚ)) (k : ℕ) (v : ℚ) : List (ℕ × ℚ) :=
  r.map (fun p => if p.1 = k then (p.1, v) else p)

/-- Sum of all values of a ratings dictionary. -/
def sum_ratings (r : List (ℕ × ℚ)) : ℚ :=
  (r.map (·.2)).sum

/-- Model of `np.clip(x, -c, c)`. -/
def clipQ (x c : ℚ) : ℚ :=
  min (max x (-c)) c

/-- Model of `np.mean` on a nonempty list. -/
def list_mean (xs : List ℚ) : ℚ :=
  xs.sum / xs.length

/-! ### src/utils/metrics.py -/

/-- Per-opponent baseline win probabilities computed at the top of
`calculate_sor`: logistic in the rating difference. -/
def win_probs_of (o : NumLib) (opponent_ratings : List ℚ)
    (baseline_rating rating_scale : ℚ) : List ℚ :=
  opponent_ratings.map (fun opp =>
    1 / (1 + o.pow10 (-(baseline_rating - opp) / rating_scale)))

/-- The continuity-corrected Normal approximation branch of `calculate_sor`
(lines 71-83 of metrics.py). -/
def sor_normal_prob (o : NumLib) (wins : ℕ) (win_probs : List ℚ) : ℚ :=
  let mu := win_probs.sum
  let variance := (win_probs.map (fun p => p * (1 - p))).sum
  let sigma := o.sqrt variance
  if 0 < sigma then 1 - o.normCdf (((wins : ℚ) - 1/2 - mu) / sigma)
  else if mu ≤ (wins : ℚ) then 1 else 0

/-- The Binomial approximation branch of `calculate_sor` (lines 84-88 of
metrics.py), using the mean per-game win probability. -/
def sor_binom_prob (o : NumLib) (wins total_games : ℕ) (win_probs : List ℚ) : ℚ :=
  let avg_prob := if win_probs = [] then 1/2 else list_mean win_probs
  1 - o.binomCdf ((wins : ℤ) - 1) total_games avg_prob

/-- Final SOR score formed from a probability:
`-log10(max(prob, 1e-10))` (line 92 of metrics.py). -/
def sor_score_of (o : NumLib) (p : ℚ) : ℚ :=
  -(o.log10 (max p (1e-10 : ℚ)))

/-- Embedding of `calculate_sor` (metrics.py). The team record is passed as
its `wins` and `losses` fields. Defaults `baseline_rating = 0.75` and
`rating_scale = 0.25` are inlined because all call sites use them. -/
def calculate_sor (o : NumLib) (wins losses : ℕ) (opponent_ratings : List ℚ) : ℚ :=
  let total_games := wins + losses
  if total_games = 0 then 0
  else
    let win_probs := win_probs_of o opponent_ratings (3/4) (1/4)
    if 20 < win_probs.length then sor_score_of o (sor_normal_prob o wins win_probs)
    else sor_score_of o (sor_binom_prob o wins total_games win_probs)

/-- Embedding of `calculate_sos` (metrics.py). -/
def calculate_sos (opponents_records : List (ℕ × ℕ))
    (opponents_opp_records : List (List (ℕ × ℕ)))
    (include_oor : Bool) (oor_weight : ℚ) : ℚ :=
  if opponents_records = [] then 0
  else
    let opp_win_pcts := opponents_records.map (fun p =>
      if 0 < p.1 + p.2 then (p.1 : ℚ) / ((p.1 : ℚ) + (p.2 : ℚ)) else 1/2)
    let avg_opp_win_pct := list_mean opp_win_pcts
    if !include_oor || opponents_opp_records.isEmpty then avg_opp_win_pct
    else
      let oor_win_pcts := opponents_opp_records.filterMap (fun opp_opps =>
        if opp_opps = [] then none
        else
          let pcts := opp_opps.filterMap (fun p =>
            if 0 < p.1 + p.2 then some ((p.1 : ℚ) / ((p.1 : ℚ) + (p.2 : ℚ))) else none)
          if pcts = [] then none else some (list_mean pcts))
      let avg_oor_win_pct := if oor_win_pcts = [] then 1/2 else list_mean oor_win_pcts
      (1 - oor_weight) * avg_opp_win_pct + oor_weight * avg_oor_win_pct

/-! ### EloRatings (src/validation/backtest.py) -/

namespace EloRatings

/-- Default `k_factor`. -/
def k : ℚ := 85

/-- Default `hfa_points`. -/
def hfa_points : ℚ := 3.75

/-- Default `mov_scale`. -/
def mov_scale : ℚ := 17

/-- Default `mov_cap`. -/
def mov_cap : ℚ := 28

/-- Base rating used by the initialisation of the ratings dict. -/
def base_rating : ℚ := 1505

/-- Embedding of `EloRatings.initialize_ratings` (renamed for the gate):
dict comprehension assigning the base rating to every team; call sites pass
duplicate-free team lists. -/
def init_ratings (teams : List ℕ) : List (ℕ × ℚ) :=
  teams.map (fun t => (t, base_rating))

/-- Embedding of `EloRatings.expected_score`. -/
def expected_score (o : NumLib) (rating_a rating_b : ℚ) : ℚ :=
  1 / (1 + o.pow10 ((rating_b - rating_a) / 400))

/-- Embedding of `EloRatings.mov_multiplier`. -/
def mov_multiplier (o : NumLib) (score_diff : ℚ) (is_neutral : Bool) : ℚ :=
  let hfa_adjusted_diff := score_diff - (if is_neutral then 0 else hfa_points)
  let hfa_adjusted_diff := clipQ hfa_adjusted_diff mov_cap
  1 / (1 + o.pow10 (-hfa_adjusted_diff / mov_scale))

/-- The rating increment applied to the home team by `update_game`:
K times (MOV-adjusted actual minus expected). -/
def home_delta (o : NumLib) (r : List (ℕ × ℚ)) (home_team away_team : ℕ)
    (home_score away_score : ℤ) (is_neutral : Bool) : ℚ :=
  let hfa_bonus : ℚ := if is_neutral then 0 else 55
  let home_rating := lookupD r home_team 0 + hfa_bonus
  let away_rating := lookupD r away_team 0
  let home_expected := expected_score o home_rating away_rating
  let score_diff : ℚ := ((home_score - away_score : ℤ) : ℚ)
  let s_adj := mov_multiplier o score_diff is_neutral
  let home_actual := if 0 < score_diff then s_adj else 1 - s_adj
  k * (home_actual - home_expected)

/-- Embedding of `EloRatings.update_game`: sequential in-place update of the
two teams' ratings (the away write reads the dict after the home write). -/
def update_game (o : NumLib) (r : List (ℕ × ℚ)) (home_team away_team : ℕ)
    (home_score away_score : ℤ) (is_neutral : Bool) : List (ℕ × ℚ) :=
  let hfa_bonus : ℚ := if is_neutral then 0 else 55
  let home_rating := lookupD r home_team 0 + hfa_bonus
  let away_rating := lookupD r away_team 0
  let home_expected := expected_score o home_rating away_rating
  let score_diff : ℚ := ((home_score - away_score : ℤ) : ℚ)
  let s_adj := mov_multiplier o score_diff is_neutral
  let home_actual := if 0 < score_diff then s_adj else 1 - s_adj
  let away_actual := if 0 < score_diff then 1 - s_adj else s_adj
  let r1 := set_key r home_team (lookupD r home_team 0 + k * (home_actual - home_expected))
  set_key r1 away_team (lookupD r1 away_team 0 + k * (away_actual - (1 - home_expected)))

end EloRatings

/-- Chronological game order used by `process_season`:
`sort_values(["week", "date"])`. -/
def game_order (a b : Game) : Prop :=
  a.week < b.week ∨ (a.week = b.week ∧ a.date ≤ b.date)

instance : DecidableRel game_order := fun a b => by
  unfold game_order; infer_instance

/-- Sorted distinct team list: `sorted(set(home) | set(away))`. -/
def teams_of (g : List Game) : List ℕ :=
  insertionSort (· ≤ ·) ((g.map (·.home_team) ++ g.map (·.away_team)).eraseDups)

namespace EloRatings

/-- Embedding of `EloRatings.process_season`.  The `prior` argument is the
ratings dict held by the object before the call; the method overwrites it
with a fresh initialisation before folding over the sorted games, which is
why the result cannot depend on `prior`. -/
def process_season (o : NumLib) (_prior : List (ℕ × ℚ)) (g : List Game) : List (ℕ × ℚ) :=
  let games_sorted := insertionSort game_order g
  let teams := teams_of games_sorted
  games_sorted.foldl
    (fun r gm => update_game o r gm.home_team gm.away_team gm.home_score gm.away_score gm.neutral_site)
    (init_ratings teams)

end EloRatings

/-! ### Association-list lemmas used by the Elo invariants -/

theorem set_key_keys (r : List (ℕ × ℚ)) (k : ℕ) (v : ℚ) :
    (set_key r k v).map (·.1) = r.map (·.1) := by
  induction r with
  | nil => rfl
  | cons p r ih =>
    by_cases h : p.1 = k <;> simp_all [set_key]

theorem set_key_not_mem (r : List (ℕ × ℚ)) (k : ℕ) (v : ℚ)
    (h : k ∉ r.map (·.1)) : set_key r k v = r := by
  induction r with
  | nil => rfl
  | cons p r ih =>
    simp only [List.map_cons, List.mem_cons, not_or] at h
    have hp : p.1 ≠ k := fun hc => h.1 hc.symm
    show (if p.1 = k then (p.1, v) else p) :: set_key r k v = p :: r
    rw [if_neg hp, ih h.2]

theorem lookupD_not_mem (r : List (ℕ × ℚ)) (k : ℕ) (d : ℚ)
    (h : k ∉ r.map (·.1)) : lookupD r k d = d := by
  induction r with
  | nil => rfl
  | cons p r ih =>
    simp only [List.map_cons, List.mem_cons, not_or] at h
    have hp : p.1 ≠ k := fun hc => h.1 hc.symm
    simp [lookupD, hp]
    exact ih h.2

theorem lookupD_set_key_self (r : List (ℕ × ℚ)) (k : ℕ) (v d : ℚ)
    (h : k ∈ r.map (·.1)) : lookupD (set_key r k v) k d = v := by
  induction r with
  | nil => simp at h
  | cons p r ih =>
    by_cases hp : p.1 = k
    · simp [set_key, lookupD, hp]
    · have h' : k ∈ r.map (·.1) := by
        rcases List.mem_cons.mp h with h1 | h1
        · exact absurd h1.symm hp
        · exact h1
      simp only [set_key, List.map_cons] at ih ⊢
      simp [lookupD, hp, ih h']

theorem lookupD_set_key_other (r : List (ℕ × ℚ)) (k q : ℕ) (v d : ℚ)
    (h : q ≠ k) : lookupD (set_key r k v) q d = lookupD r q d := by
  induction r with
  | nil => rfl
  | cons p r ih =>
    show lookupD ((if p.1 = k then (p.1, v) else p) :: set_key r k v) q d = _
    by_cases hp : p.1 = k
    · rw [if_pos hp]
      show (if p.1 = q then v else lookupD (set_key r k v) q d)
          = (if p.1 = q then p.2 else lookupD r q d)
      have hq : p.1 ≠ q := fun hc => h (hc ▸ hp)
      rw [if_neg hq, if_neg hq, ih]
    · rw [if_neg hp]
      show (if p.1 = q then p.2 else lookupD (set_key r k v) q d)
          = (if p.1 = q then p.2 else lookupD r q d)
      by_cases hq : p.1 = q
      · rw [if_pos hq, if_pos hq]
      · rw [if_neg hq, if_neg hq, ih]

theorem sum_ratings_set_key (r : List (ℕ × ℚ)) (k : ℕ) (v : ℚ)
    (hn : (r.map (·.1)).Nodup) (h : k ∈ r.map (·.1)) :
    sum_ratings (set_key r k v) = sum_ratings r - lookupD r k 0 + v := by
  induction r with
  | nil => simp at h
  | cons p r ih =>
    simp only [List.map_cons, List.nodup_cons] at hn
    show sum_ratings ((if p.1 = k then (p.1, v) else p) :: set_key r k v)
        = sum_ratings (p :: r) - lookupD (p :: r) k 0 + v
    by_cases hp : p.1 = k
    · have hk : k ∉ r.map (·.1) := hp ▸ hn.1
      rw [if_pos hp, set_key_not_mem r k v hk]
      show v + sum_ratings r
          = (p.2 + sum_ratings r) - (if p.1 = k then p.2 else lookupD r k 0) + v
      rw [if_pos hp]
      ring
    · have h' : k ∈ r.map (·.1) := by
        rcases List.mem_cons.mp h with h1 | h1
        · exact absurd h1.symm hp
        · exact h1
      rw [if_neg hp]
      show p.2 + sum_ratings (set_key r k v)
          = (p.2 + sum_ratings r) - (if p.1 = k then p.2 else lookupD r k 0) + v
      rw [if_neg hp, ih hn.2 h']
      ring

theorem update_game_keys (o : NumLib) (r : List (ℕ × ℚ)) (h a : ℕ)
    (hs as_ : ℤ) (n : Bool) :
    (EloRatings.update_game o r h a hs as_ n).map (·.1) = r.map (·.1) := by
  unfold EloRatings.update_game
  rw [set_key_keys, set_key_keys]

theorem sum_update_game (o : NumLib) (r : List (ℕ × ℚ)) (h a : ℕ)
    (hs as_ : ℤ) (n : Bool) (hne : h ≠ a)
    (hn : (r.map (·.1)).Nodup) (hh : h ∈ r.map (·.1)) (ha : a ∈ r.map (·.1)) :
    sum_ratings (EloRatings.update_game o r h a hs as_ n) = sum_ratings r := by
  unfold EloRatings.update_game
  simp only []
  rw [sum_ratings_set_key _ a _ (by rw [set_key_keys]; exact hn)
        (by rw [set_key_keys]; exact ha),
      sum_ratings_set_key _ h _ hn hh,
      lookupD_set_key_other _ _ _ _ _ (Ne.symm hne)]
  by_cases hc : 0 < ((hs - as_ : ℤ) : ℚ) <;> simp only [hc, if_true, if_false] <;> ring

theorem sum_foldl_update (o : NumLib) (gs : List Game) :
    ∀ r : List (ℕ × ℚ), (r.map (·.1)).Nodup →
    (∀ gm ∈ gs, gm.home_team ∈ r.map (·.1) ∧ gm.away_team ∈ r.map (·.1) ∧
      gm.home_team ≠ gm.away_team) →
    sum_ratings (gs.foldl (fun r gm =>
        EloRatings.update_game o r gm.home_team gm.away_team gm.home_score
          gm.away_score gm.neutral_site) r)
      = sum_ratings r := by
  induction gs with
  | nil => intro r _ _; rfl
  | cons gm gs ih =>
    intro r hn hmem
    have h0 := hmem gm (List.mem_cons_self gm gs)
    have hstep := sum_update_game o r gm.home_team gm.away_team gm.home_score
      gm.away_score gm.neutral_site h0.2.2 hn h0.1 h0.2.1
    have hkeys := update_game_keys o r gm.home_team gm.away_team gm.home_score
      gm.away_score gm.neutral_site
    simp only [List.foldl_cons]
    rw [ih _ (by rw [hkeys]; exact hn)
      (fun g hg => by rw [hkeys]; exact hmem g (List.mem_cons_of_mem gm hg)), hstep]

theorem sum_init_ratings (teams : List ℕ) :
    sum_ratings (EloRatings.init_ratings teams) = EloRatings.base_rating * teams.length := by
  induction teams with
  | nil => simp [EloRatings.init_ratings, sum_ratings]
  | cons t ts ih =>
    simp only [EloRatings.init_ratings, List.map_cons, sum_ratings, List.sum_cons,
      List.length_cons] at ih ⊢
    rw [ih]
    push_cast
    ring

theorem init_ratings_keys (teams : List ℕ) :
    (EloRatings.init_ratings teams).map (·.1) = teams := by
  induction teams with
  | nil => rfl
  | cons t ts ih => simp only [EloRatings.init_ratings, List.map_cons] at ih ⊢; rw [ih]

/-- A concrete instantiation of the external-library record, used by the
witness theorems to evaluate the embedding on concrete inputs. -/
def probe_lib : NumLib :=
  { pow10 := fun _ => 1
    log10 := fun x => x
    sqrt := fun _ => 1
    normCdf := fun _ => 1/2
    binomCdf := fun _ _ _ => 0
    linSolve := fun _ _ => none }

/-- C10: every `update_game` call moves the two participating teams' ratings
by exactly opposite amounts (the away delta is the negation of the home
delta, which is K times the MOV-adjusted actual minus expected), so after
`initialize_ratings` and any sequence of `update_game` calls over teams in
the dict the ratings sum to the base rating (1505) times the team count. -/
theorem c10_elo_sum_invariant :
    (∀ (o : NumLib) (r : List (ℕ × ℚ)) (h a : ℕ) (hs as_ : ℤ) (n : Bool),
      h ≠ a → h ∈ r.map (·.1) → a ∈ r.map (·.1) →
      lookupD (EloRatings.update_game o r h a hs as_ n) h 0
          = lookupD r h 0 + EloRatings.home_delta o r h a hs as_ n
        ∧ lookupD (EloRatings.update_game o r h a hs as_ n) a 0
          = lookupD r a 0 - EloRatings.home_delta o r h a hs as_ n)
  ∧ (∀ (o : NumLib) (teams : List ℕ) (gs : List Game),
      teams.Nodup →
      (∀ gm ∈ gs, gm.home_team ∈ teams ∧ gm.away_team ∈ teams ∧
        gm.home_team ≠ gm.away_team) →
      sum_ratings (gs.foldl (fun r gm =>
          EloRatings.update_game o r gm.home_team gm.away_team gm.home_score
            gm.away_score gm.neutral_site)
        (EloRatings.init_ratings teams))
        = EloRatings.base_rating * teams.length) := by
  constructor
  · intro o r h a hs as_ n hne hh ha
    unfold EloRatings.update_game EloRatings.home_delta
    simp only []
    constructor
    · rw [lookupD_set_key_other _ _ _ _ _ hne, lookupD_set_key_self _ _ _ _ hh]
    · rw [lookupD_set_key_self _ _ _ _ (by rw [set_key_keys]; exact ha),
        lookupD_set_key_other _ _ _ _ _ (Ne.symm hne)]
      by_cases hc : 0 < ((hs - as_ : ℤ) : ℚ) <;>
        simp only [hc, if_true, if_false] <;> ring
  · intro o teams gs hnd hmem
    rw [sum_foldl_update o gs _ (by rw [init_ratings_keys]; exact hnd)
      (fun gm hg => by rw [init_ratings_keys]; exact hmem gm hg),
      sum_init_ratings]

/-- C10 witness: the invariant at a concrete two-team dict and one game. -/
theorem c10_elo_sum_invariant_witness :
    (lookupD (EloRatings.update_game probe_lib [(1, 1505), (2, 1505)] 1 2 21 7 false) 1 0
        = lookupD [(1, 1505), (2, 1505)] 1 0 +
          EloRatings.home_delta probe_lib [(1, 1505), (2, 1505)] 1 2 21 7 false
      ∧ lookupD (EloRatings.update_game probe_lib [(1, 1505), (2, 1505)] 1 2 21 7 false) 2 0
        = lookupD [(1, 1505), (2, 1505)] 2 0 -
          EloRatings.home_delta probe_lib [(1, 1505), (2, 1505)] 1 2 21 7 false)
  ∧ sum_ratings (([⟨1, 1, 1, 2, 21, 7, false⟩] : List Game).foldl (fun r gm =>
      EloRatings.update_game probe_lib r gm.home_team gm.away_team gm.home_score
        gm.away_score gm.neutral_site) (EloRatings.init_ratings [1, 2]))
      = EloRatings.base_rating * ([1, 2] : List ℕ).length :=
  ⟨c10_elo_sum_invariant.1 probe_lib [(1, 1505), (2, 1505)] 1 2 21 7 false
      (by decide) (by decide) (by decide),
    c10_elo_sum_invariant.2 probe_lib [1, 2] [⟨1, 1, 1, 2, 21, 7, false⟩]
      (by decide) (by decide)⟩

/-- C9: `process_season` is deterministic — two runs over the identical
ordered game sequence produce identical final rating maps, whatever ratings
dict the object held beforehand (the method re-initialises its state). -/
theorem c9_elo_deterministic (o : NumLib) (r₁ r₂ : List (ℕ × ℚ)) (g : List Game) :
    EloRatings.process_season o r₁ g = EloRatings.process_season o r₂ g := rfl

/-- C2 (amended): `calculate_sor` takes the continuity-corrected Normal
branch when the opponent count is strictly greater than 20, and the
Binomial branch (mean per-game probability) when the count is at most 20;
when at least one game was played both branches return
minus log10 of max(probability, 1e-10). -/
theorem c2_sor_branching (o : NumLib) (wins losses : ℕ) (opponent_ratings : List ℚ)
    (hgames : 0 < wins + losses) :
    (20 < opponent_ratings.length →
      calculate_sor o wins losses opponent_ratings
        = sor_score_of o (sor_normal_prob o wins
            (win_probs_of o opponent_ratings (3/4) (1/4))))
  ∧ (opponent_ratings.length ≤ 20 →
      calculate_sor o wins losses opponent_ratings
        = sor_score_of o (sor_binom_prob o wins (wins + losses)
            (win_probs_of o opponent_ratings (3/4) (1/4)))) := by
  have hlen : (win_probs_of o opponent_ratings (3/4) (1/4)).length
      = opponent_ratings.length := by
    simp [win_probs_of]
  unfold calculate_sor
  simp only []
  rw [if_neg (by omega)]
  constructor
  · intro hl
    rw [if_pos (by rw [hlen]; exact hl)]
  · intro hl
    rw [if_neg (by rw [hlen]; omega)]

/-- C2 counterexample: with exactly 20 opponents the claim's boundary
(Normal approximation whenever the count is at least 20) fails — the code
takes the Binomial branch, and at this input the two branches produce
different scores. -/
theorem c2_sor_branching_counterexample :
    calculate_sor probe_lib 1 0 (List.replicate 20 (3/4))
      ≠ sor_score_of probe_lib (sor_normal_prob probe_lib 1
          (win_probs_of probe_lib (List.replicate 20 (3/4)) (3/4) (1/4))) := by
  have hwp : win_probs_of probe_lib (List.replicate 20 (3/4)) (3/4) (1/4)
      = List.replicate 20 (1/2 : ℚ) := by
    norm_num [win_probs_of, probe_lib, List.map_replicate]
  have h1 : calculate_sor probe_lib 1 0 (List.replicate 20 (3/4)) = -1 := by
    rw [calculate_sor]
    simp only [hwp]
    norm_num [sor_binom_prob, sor_score_of, list_mean, probe_lib, List.sum_replicate]
  have h2 : sor_score_of probe_lib (sor_normal_prob probe_lib 1
      (win_probs_of probe_lib (List.replicate 20 (3/4)) (3/4) (1/4))) = -(1/2) := by
    rw [hwp]
    rw [sor_normal_prob]
    norm_num [List.map_replicate, List.sum_replicate, probe_lib, sor_score_of]
  rw [h1, h2]
  norm_num

/-- C2 witness: the amended branching evaluated at 21 and at 20 opponents. -/
theorem c2_sor_branching_witness :
    (0 < 1 + 0 ∧ (20 < (List.replicate 21 (3/4 : ℚ)).length ∧
      calculate_sor probe_lib 1 0 (List.replicate 21 (3/4))
        = sor_score_of probe_lib (sor_normal_prob probe_lib 1
            (win_probs_of probe_lib (List.replicate 21 (3/4)) (3/4) (1/4)))))
  ∧ ((List.replicate 20 (3/4 : ℚ)).length ≤ 20 ∧
      calculate_sor probe_lib 1 0 (List.replicate 20 (3/4))
        = sor_score_of probe_lib (sor_binom_prob probe_lib 1 (1 + 0)
            (win_probs_of probe_lib (List.replicate 20 (3/4)) (3/4) (1/4)))) :=
  ⟨⟨by decide, by decide,
      (c2_sor_branching probe_lib 1 0 (List.replicate 21 (3/4)) (by decide)).1 (by decide)⟩,
    by decide,
    (c2_sor_branching probe_lib 1 0 (List.replicate 20 (3/4)) (by decide)).2 (by decide)⟩

/-! ### ColleyMatrix and MasseyRatings (src/validation/backtest.py) -/

/-- Number of appearances of team `t` on either side of a game list; the
Colley/Massey diagonal accumulates one per appearance (a degenerate
self-game would count twice, as in the source's `+= 1` on both sides). -/
def appearance_count (g : List Game) (t : ℕ) : ℚ :=
  (g.map (fun gm => (if gm.home_team = t then (1 : ℚ) else 0) +
    (if gm.away_team = t then (1 : ℚ) else 0))).sum

/-- Number of games between teams `t` and `u` (either orientation). -/
def pair_count (g : List Game) (t u : ℕ) : ℚ :=
  (g.map (fun gm =>
    (if gm.home_team = t ∧ gm.away_team = u then (1 : ℚ) else 0) +
    (if gm.home_team = u ∧ gm.away_team = t then (1 : ℚ) else 0))).sum

/-- One row of the shared Colley / Colleyized-Massey matrix: diagonal is
games played plus 2, off-diagonal is minus the number of meetings.  The
source builds this identical matrix in both `ColleyMatrix.build_system`
and `MasseyRatings.build_system`. -/
def games_matrix_row (g : List Game) (ts : List ℕ) (t : ℕ) : List ℚ :=
  ts.map (fun u => if t = u then 2 + appearance_count g t else -(pair_count g t u))

/-- Colley win count: the home team wins when `home_score > away_score`,
otherwise the away team is credited with the win. -/
def colley_wins (g : List Game) (t : ℕ) : ℕ :=
  g.countP (fun gm => decide ((gm.home_team = t ∧ gm.away_score < gm.home_score) ∨
    (gm.away_team = t ∧ ¬ gm.away_score < gm.home_score)))

/-- Colley loss count, mirroring `colley_wins`. -/
def colley_losses (g : List Game) (t : ℕ) : ℕ :=
  g.countP (fun gm => decide ((gm.away_team = t ∧ gm.away_score < gm.home_score) ∨
    (gm.home_team = t ∧ ¬ gm.away_score < gm.home_score)))

/-- Right-hand side entry of the Colley system:
`1 + 0.5 * (wins - losses)`. -/
def colley_b (g : List Game) (t : ℕ) : ℚ :=
  1 + (1/2) * ((colley_wins g t : ℚ) - (colley_losses g t : ℚ))

/-- Embedding of `ColleyMatrix.solve`: on solver failure the ratings dict
is left empty instead of propagating the error. -/
def colley_solve (o : NumLib) (g : List Game) : List (ℕ × ℚ) :=
  let ts := teams_of g
  match o.linSolve (ts.map (games_matrix_row g ts)) (ts.map (colley_b g)) with
  | some r => ts.zip r
  | none => []

/-- Home-field-adjusted, margin-capped score differential used by Massey
(`apply_adjustments`): subtract 3.75 from the home margin unless neutral,
then clip to plus or minus 28. -/
def adj_margin (gm : Game) : ℚ :=
  clipQ (((gm.home_score - gm.away_score : ℤ) : ℚ) -
    (if gm.neutral_site then 0 else 3.75)) 28

/-- Right-hand side entry of the Massey system: accumulated adjusted
margins, positive for home appearances and negative for away ones. -/
def massey_p (g : List Game) (t : ℕ) : ℚ :=
  (g.map (fun gm => (if gm.home_team = t then adj_margin gm else 0) +
    (if gm.away_team = t then -(adj_margin gm) else 0))).sum

/-- Embedding of `MasseyRatings.solve` (mov_cap 28, hfa 3.75 defaults). -/
def massey_solve (o : NumLib) (g : List Game) : List (ℕ × ℚ) :=
  let ts := teams_of g
  match o.linSolve (ts.map (games_matrix_row g ts)) (ts.map (massey_p g)) with
  | some r => ts.zip r
  | none => []

/-! ### calculate_composite_rankings (src/validation/backtest.py) -/

/-- Win count in the `win_pcts` loop of `calculate_composite_rankings`:
for each game of the team, the home branch is checked first and a win is
credited on a strict score comparison. -/
def loop_wins (g : List Game) (t : ℕ) : ℕ :=
  g.countP (fun gm => decide ((gm.home_team = t ∨ gm.away_team = t) ∧
    (if gm.home_team = t then gm.away_score < gm.home_score
     else gm.home_score < gm.away_score)))

/-- Number of games involving team `t`. -/
def games_played (g : List Game) (t : ℕ) : ℕ :=
  g.countP (fun gm => decide (gm.home_team = t ∨ gm.away_team = t))

/-- Win percentage as computed in `calculate_composite_rankings`
(0.0 for a team with no games). -/
def win_pct_of (g : List Game) (t : ℕ) : ℚ :=
  if 0 < games_played g t then (loop_wins g t : ℚ) / (games_played g t : ℚ) else 0

/-- Min-max normalisation across a value list, as `MinMaxScaler` does it:
`(x - min) / (max - min)`, with a unit denominator when the range is 0. -/
def mm_norm (xs : List ℚ) (x : ℚ) : ℚ :=
  let mn := (xs.min?).getD 0
  let mx := (xs.max?).getD 0
  (x - mn) / (if mx - mn = 0 then 1 else mx - mn)

/-- Colley rating used by the composite step: `colley_ratings.get(t, 0)`. -/
def colley_val (o : NumLib) (g : List Game) (t : ℕ) : ℚ :=
  lookupD (colley_solve o g) t 0

/-- Massey rating used by the composite step: `massey_ratings.get(t, 0)`. -/
def massey_val (o : NumLib) (g : List Game) (t : ℕ) : ℚ :=
  lookupD (massey_solve o g) t 0

/-- Elo rating used by the composite step: `elo_ratings.get(t, 0)` after
`EloRatings().process_season(games_df)` on a fresh instance. -/
def elo_val (o : NumLib) (g : List Game) (t : ℕ) : ℚ :=
  lookupD (EloRatings.process_season o [] g) t 0

/-- The Colley column over the team set. -/
def colley_list (o : NumLib) (g : List Game) : List ℚ :=
  (teams_of g).map (colley_val o g)

/-- The Massey column over the team set. -/
def massey_list (o : NumLib) (g : List Game) : List ℚ :=
  (teams_of g).map (massey_val o g)

/-- The Elo column over the team set. -/
def elo_list (o : NumLib) (g : List Game) : List ℚ :=
  (teams_of g).map (elo_val o g)

/-- Resume score: `0.6 * norm(Colley) + 0.4 * win_pct` (win percentage is
used raw, not normalised — line 404 of backtest.py). -/
def resume_score_of (o : NumLib) (g : List Game) (t : ℕ) : ℚ :=
  0.6 * mm_norm (colley_list o g) (colley_val o g t) + 0.4 * win_pct_of g t

/-- Predictive score: `0.5 * norm(Massey) + 0.5 * norm(Elo)`. -/
def predictive_score_of (o : NumLib) (g : List Game) (t : ℕ) : ℚ :=
  0.5 * mm_norm (massey_list o g) (massey_val o g t) +
    0.5 * mm_norm (elo_list o g) (elo_val o g t)

/-- Provisional composite used only to rate opponents:
`0.50 * resume + 0.30 * predictive`. -/
def provisional_of (o : NumLib) (g : List Game) (t : ℕ) : ℚ :=
  0.50 * resume_score_of o g t + 0.30 * predictive_score_of o g t

/-- The provisional column over the team set. -/
def prov_list (o : NumLib) (g : List Game) : List ℚ :=
  (teams_of g).map (provisional_of o g)

/-- The opponent-rating dict: min-max normalised provisional scores. -/
def opponent_rating_lookup (o : NumLib) (g : List Game) : List (ℕ × ℚ) :=
  (teams_of g).map (fun t => (t, mm_norm (prov_list o g) (provisional_of o g t)))

/-- Opponent rating with the source's 0.5 default for missing teams. -/
def opp_rating (o : NumLib) (g : List Game) (t : ℕ) : ℚ :=
  lookupD (opponent_rating_lookup o g) t (1/2)

/-- Opponent list of a team, in game order (`get_opponent_records`). -/
def opponents_of (g : List Game) (t : ℕ) : List ℕ :=
  g.filterMap (fun gm =>
    if gm.home_team = t ∨ gm.away_team = t
    then some (if gm.home_team = t then gm.away_team else gm.home_team)
    else none)

/-- An opponent's record, excluding wins from head-to-head games against
the team itself; the loss count is the opponent's full game count minus
these wins (head-to-head games are not excluded from the denominator,
exactly as in the source). -/
def opp_record (g : List Game) (t opp : ℕ) : ℕ × ℕ :=
  let opp_games := g.filter (fun gm => decide (gm.home_team = opp ∨ gm.away_team = opp))
  let w := opp_games.countP (fun gm =>
    decide (¬ ((gm.home_team = t ∧ gm.away_team = opp) ∨
        (gm.home_team = opp ∧ gm.away_team = t)) ∧
      (if gm.home_team = opp then gm.away_score < gm.home_score
       else gm.home_score < gm.away_score)))
  (w, opp_games.length - w)

/-- Per-game win/loss entries of an opponent (the source records the
opponent's own result in each of its games, skipping games against the
team itself). -/
def opp_opp_records (g : List Game) (t opp : ℕ) : List (ℕ × ℕ) :=
  (g.filter (fun gm => decide (gm.home_team = opp ∨ gm.away_team = opp))).filterMap
    (fun gm =>
      let oo := if gm.home_team = opp then gm.away_team else gm.home_team
      if oo = t then none
      else if gm.home_team = opp then
        (if gm.away_score < gm.home_score then some (1, 0) else some (0, 1))
      else
        (if gm.home_score < gm.away_score then some (1, 0) else some (0, 1)))

/-- SOR input record: `get_team_record` wins (vectorised strict
comparisons) and losses as total minus wins. -/
def record_wins (g : List Game) (t : ℕ) : ℕ :=
  g.countP (fun gm => decide (gm.home_team = t ∧ gm.away_score < gm.home_score)) +
    g.countP (fun gm => decide (gm.away_team = t ∧ gm.home_score < gm.away_score))

/-- Team SOR score as computed in the pipeline. -/
def sor_score_team (o : NumLib) (g : List Game) (t : ℕ) : ℚ :=
  calculate_sor o (record_wins g t) (games_played g t - record_wins g t)
    ((opponents_of g t).map (opp_rating o g))

/-- Team SOS score as computed in the pipeline
(`include_oor=True, oor_weight=0.33`). -/
def sos_score_team (_o : NumLib) (g : List Game) (t : ℕ) : ℚ :=
  calculate_sos ((opponents_of g t).map (opp_record g t))
    ((opponents_of g t).map (opp_opp_records g t)) true 0.33

/-- The resume column over the team set. -/
def resume_list (o : NumLib) (g : List Game) : List ℚ :=
  (teams_of g).map (resume_score_of o g)

/-- The predictive column over the team set. -/
def predictive_list (o : NumLib) (g : List Game) : List ℚ :=
  (teams_of g).map (predictive_score_of o g)

/-- The SOR column over the team set. -/
def sor_list (o : NumLib) (g : List Game) : List ℚ :=
  (teams_of g).map (sor_score_team o g)

/-- The SOS column over the team set. -/
def sos_list (o : NumLib) (g : List Game) : List ℚ :=
  (teams_of g).map (sos_score_team o g)

/-- Final composite score: `0.50 * norm(resume) + 0.30 * norm(predictive)
+ 0.10 * norm(SOR) + 0.10 * norm(SOS)` (lines 512-519 of backtest.py). -/
def composite_score_of (o : NumLib) (g : List Game) (t : ℕ) : ℚ :=
  0.50 * mm_norm (resume_list o g) (resume_score_of o g t) +
    0.30 * mm_norm (predictive_list o g) (predictive_score_of o g t) +
    0.10 * mm_norm (sor_list o g) (sor_score_team o g t) +
    0.10 * mm_norm (sos_list o g) (sos_score_team o g t)

/-- One output row of `calculate_composite_rankings`. -/
structure TeamRow where
  team : ℕ
  composite_score : ℚ
  resume_score : ℚ
  predictive_score : ℚ
  sor : ℚ
  sos : ℚ
  colley_rating : ℚ
  massey_rating : ℚ
  elo_rating : ℚ
  win_pct : ℚ
  rank : ℕ
deriving DecidableEq

/-- The row built for one team before ranks are attached. -/
def mk_team_row (o : NumLib) (g : List Game) (t : ℕ) : TeamRow :=
  { team := t
    composite_score := composite_score_of o g t
    resume_score := resume_score_of o g t
    predictive_score := predictive_score_of o g t
    sor := sor_score_team o g t
    sos := sos_score_team o g t
    colley_rating := colley_val o g t
    massey_rating := massey_val o g t
    elo_rating := elo_val o g t
    win_pct := win_pct_of g t
    rank := 0 }

/-- Descending sort key on composite score
(`sort_values("composite_score", ascending=False)`). -/
def by_composite (a b : TeamRow) : Prop :=
  b.composite_score ≤ a.composite_score

instance : DecidableRel by_composite := fun a b => by
  unfold by_composite; infer_instance

/-- Dense rank assignment `1..N` in list order
(`df["rank"] = range(1, len(df) + 1)`). -/
def attach_ranks : ℕ → List TeamRow → List TeamRow
  | _, [] => []
  | i, r :: rs => { r with rank := i } :: attach_ranks (i + 1) rs

/-- Embedding of `calculate_composite_rankings` (backtest.py). -/
def calculate_composite_rankings (o : NumLib) (g : List Game) : List TeamRow :=
  attach_ranks 1 (insertionSort by_composite ((teams_of g).map (mk_team_row o g)))

theorem attach_ranks_length (i : ℕ) (l : List TeamRow) :
    (attach_ranks i l).length = l.length := by
  induction l generalizing i with
  | nil => rfl
  | cons r rs ih => simp [attach_ranks, ih]

theorem mem_attach_ranks (i : ℕ) (l : List TeamRow) (r : TeamRow)
    (h : r ∈ attach_ranks i l) : ∃ j x, x ∈ l ∧ r = { x with rank := j } := by
  induction l generalizing i with
  | nil => simp [attach_ranks] at h
  | cons x xs ih =>
    simp only [attach_ranks, List.mem_cons] at h
    rcases h with h | h
    · exact ⟨i, x, List.mem_cons_self x xs, h⟩
    · obtain ⟨j, y, hy, hr⟩ := ih (i + 1) h
      exact ⟨j, y, List.mem_cons_of_mem x hy, hr⟩

/-- C1: for every non-empty game log, each output row's final composite
score is 0.5 times the min-max-normalised resume score plus 0.3 times the
normalised predictive score plus 0.1 times the normalised SOR plus 0.1
times the normalised SOS, each normalisation taken across the current team
set; the rows' component fields are exactly those per-team components. -/
theorem c1_composite_blend (o : NumLib) (g : List Game) (_hg : g ≠ []) :
    (calculate_composite_rankings o g).map (·.composite_score)
      = (calculate_composite_rankings o g).map (fun r =>
          0.50 * mm_norm ((teams_of g).map (resume_score_of o g)) (resume_score_of o g r.team)
        + 0.30 * mm_norm ((teams_of g).map (predictive_score_of o g))
            (predictive_score_of o g r.team)
        + 0.10 * mm_norm ((teams_of g).map (sor_score_team o g)) (sor_score_team o g r.team)
        + 0.10 * mm_norm ((teams_of g).map (sos_score_team o g)) (sos_score_team o g r.team))
  ∧ (calculate_composite_rankings o g).map
        (fun r => (r.resume_score, r.predictive_score, r.sor, r.sos))
      = (calculate_composite_rankings o g).map (fun r =>
          (resume_score_of o g r.team, predictive_score_of o g r.team,
            sor_score_team o g r.team, sos_score_team o g r.team)) := by
  have key : ∀ r ∈ calculate_composite_rankings o g,
      r.composite_score = composite_score_of o g r.team
      ∧ r.resume_score = resume_score_of o g r.team
      ∧ r.predictive_score = predictive_score_of o g r.team
      ∧ r.sor = sor_score_team o g r.team
      ∧ r.sos = sos_score_team o g r.team := by
    intro r hr
    obtain ⟨j, x, hx, rfl⟩ := mem_attach_ranks _ _ _ hr
    have hx2 : x ∈ (teams_of g).map (mk_team_row o g) :=
      (List.perm_insertionSort by_composite _).mem_iff.mp hx
    obtain ⟨t, _, rfl⟩ := List.mem_map.mp hx2
    exact ⟨rfl, rfl, rfl, rfl, rfl⟩
  constructor
  · apply List.map_congr_left
    intro r hr
    rw [(key r hr).1]
    rfl
  · apply List.map_congr_left
    intro r hr
    obtain ⟨_, h2, h3, h4, h5⟩ := key r hr
    rw [h2, h3, h4, h5]

/-- C1 witness: the blend at a concrete one-game log. -/
theorem c1_composite_blend_witness :
    (calculate_composite_rankings probe_lib [⟨1, 1, 1, 2, 21, 7, false⟩]).map
        (·.composite_score)
      = (calculate_composite_rankings probe_lib [⟨1, 1, 1, 2, 21, 7, false⟩]).map (fun r =>
          0.50 * mm_norm ((teams_of [⟨1, 1, 1, 2, 21, 7, false⟩]).map
              (resume_score_of probe_lib [⟨1, 1, 1, 2, 21, 7, false⟩]))
            (resume_score_of probe_lib [⟨1, 1, 1, 2, 21, 7, false⟩] r.team)
        + 0.30 * mm_norm ((teams_of [⟨1, 1, 1, 2, 21, 7, false⟩]).map
              (predictive_score_of probe_lib [⟨1, 1, 1, 2, 21, 7, false⟩]))
            (predictive_score_of probe_lib [⟨1, 1, 1, 2, 21, 7, false⟩] r.team)
        + 0.10 * mm_norm ((teams_of [⟨1, 1, 1, 2, 21, 7, false⟩]).map
              (sor_score_team probe_lib [⟨1, 1, 1, 2, 21, 7, false⟩]))
            (sor_score_team probe_lib [⟨1, 1, 1, 2, 21, 7, false⟩] r.team)
        + 0.10 * mm_norm ((teams_of [⟨1, 1, 1, 2, 21, 7, false⟩]).map
              (sos_score_team probe_lib [⟨1, 1, 1, 2, 21, 7, false⟩]))
            (sos_score_team probe_lib [⟨1, 1, 1, 2, 21, 7, false⟩] r.team)) :=
  (c1_composite_blend probe_lib [⟨1, 1, 1, 2, 21, 7, false⟩] (by decide)).1

/-- C8: if the Colley (resp. Massey) linear solve fails, `solve` returns an
empty ratings dict instead of propagating the error, the composite step
then uses the neutral rating 0 for every team from that solver, and
`calculate_composite_rankings` still produces one row per team. -/
theorem c8_solver_failure (o : NumLib) (g : List Game) :
    (o.linSolve ((teams_of g).map (games_matrix_row g (teams_of g)))
        ((teams_of g).map (colley_b g)) = none →
      colley_solve o g = [] ∧ ∀ t ∈ teams_of g, colley_val o g t = 0)
  ∧ (o.linSolve ((teams_of g).map (games_matrix_row g (teams_of g)))
        ((teams_of g).map (massey_p g)) = none →
      massey_solve o g = [] ∧ ∀ t ∈ teams_of g, massey_val o g t = 0)
  ∧ (calculate_composite_rankings o g).length = (teams_of g).length := by
  refine ⟨?_, ?_, ?_⟩
  · intro h
    have hempty : colley_solve o g = [] := by
      unfold colley_solve
      simp only [h]
    exact ⟨hempty, fun t _ => by rw [colley_val, hempty]; rfl⟩
  · intro h
    have hempty : massey_solve o g = [] := by
      unfold massey_solve
      simp only [h]
    exact ⟨hempty, fun t _ => by rw [massey_val, hempty]; rfl⟩
  · rw [calculate_composite_rankings, attach_ranks_length,
      (List.perm_insertionSort by_composite _).length_eq, List.length_map]

/-- C8 witness: a failing solver on a concrete one-game log. -/
theorem c8_solver_failure_witness :
    (colley_solve probe_lib [⟨1, 1, 1, 2, 21, 7, false⟩] = []
      ∧ colley_val probe_lib [⟨1, 1, 1, 2, 21, 7, false⟩] 1 = 0)
  ∧ (massey_solve probe_lib [⟨1, 1, 1, 2, 21, 7, false⟩] = []
      ∧ massey_val probe_lib [⟨1, 1, 1, 2, 21, 7, false⟩] 2 = 0)
  ∧ (calculate_composite_rankings probe_lib [⟨1, 1, 1, 2, 21, 7, false⟩]).length
      = (teams_of [⟨1, 1, 1, 2, 21, 7, false⟩]).length :=
  ⟨⟨((c8_solver_failure probe_lib [⟨1, 1, 1, 2, 21, 7, false⟩]).1 rfl).1,
      ((c8_solver_failure probe_lib [⟨1, 1, 1, 2, 21, 7, false⟩]).1 rfl).2 1 (by decide)⟩,
    ⟨((c8_solver_failure probe_lib [⟨1, 1, 1, 2, 21, 7, false⟩]).2.1 rfl).1,
      ((c8_solver_failure probe_lib [⟨1, 1, 1, 2, 21, 7, false⟩]).2.1 rfl).2 2 (by decide)⟩,
    (c8_solver_failure probe_lib [⟨1, 1, 1, 2, 21, 7, false⟩]).2.2⟩

/-! ### src/playoff/bracket.py -/

/-- Character-list prefix test used to model substring containment. -/
def chars_lead (pat : List Char) : List Char → Bool
  | [] => pat.isEmpty
  | b :: bs =>
    match pat with
    | [] => true
    | a :: as_ => a == b && chars_lead as_ bs

/-- Character-list substring test. -/
def chars_have_sub (pat : List Char) : List Char → Bool
  | [] => pat.isEmpty
  | c :: rest => chars_lead pat (c :: rest) || chars_have_sub pat rest

/-- Model of the champion-flag test
`rankings_df[conf_champ_col].str.contains("Yes", na=False)`. -/
def hasYes (s : String) : Bool :=
  chars_have_sub "Yes".data s.data

/-- One row of the ranked team table consumed by the playoff logic. -/
structure PRow where
  rank : ℕ
  team : ℕ
  conf_champ : String
  composite_score : ℚ
deriving DecidableEq

/-- Sort key of `sort_values('rank')`. -/
def by_rank (a b : PRow) : Prop :=
  a.rank ≤ b.rank

instance : DecidableRel by_rank := fun a b => Nat.decLe a.rank b.rank

instance : IsTotal PRow by_rank := ⟨fun a b => Nat.le_total a.rank b.rank⟩

instance : IsTrans PRow by_rank := ⟨fun _ _ _ h1 h2 => Nat.le_trans h1 h2⟩

/-- Result record of `select_playoff_field`; the human-readable audit log
(display-only strings) is not modelled. -/
structure PlayoffSelection where
  playoff_teams : List PRow
  auto_bids : List PRow
  at_large_bids : List PRow
  displaced_team : Option PRow
  champ_pulled_in : Bool
deriving DecidableEq

/-- Embedding of `select_playoff_field` (bracket.py lines 44-145). -/
def select_playoff_field (rankings : List PRow) (n_auto_bids n_at_large : ℕ) :
    PlayoffSelection :=
  let total_teams := n_auto_bids + n_at_large
  let sorted_rankings := insertionSort by_rank rankings
  let champs := sorted_rankings.filter (fun t => hasYes t.conf_champ)
  let n_auto := if champs.length < n_auto_bids then champs.length else n_auto_bids
  let n_al := if champs.length < n_auto_bids then total_teams - champs.length else n_at_large
  let auto_bid_teams := champs.take n_auto
  let auto_bid_names := auto_bid_teams.map (·.team)
  let eligible_at_large := sorted_rankings.filter
    (fun t => !(decide (t.team ∈ auto_bid_names)))
  let at_large_teams := eligible_at_large.take n_al
  let champ_pulled_in := auto_bid_teams.any (fun t => decide (total_teams < t.rank))
  let displaced_team :=
    if champ_pulled_in && !at_large_teams.isEmpty && decide (n_al < eligible_at_large.length)
    then eligible_at_large[n_al - 1]?
    else none
  let playoff_teams := (insertionSort by_rank (auto_bid_teams ++ at_large_teams)).take total_teams
  ⟨playoff_teams, auto_bid_teams, at_large_teams, displaced_team, champ_pulled_in⟩

/-- One row of the seeded bracket table; the display-only `wins`, `losses`
and `conference` pass-through columns are not modelled. -/
structure SeedRow where
  seed : ℕ
  team : ℕ
  rank : ℕ
  conf_champ : String
  is_bye : Bool
  composite_score : ℚ
deriving DecidableEq

/-- A bye row appended for one of the top-4 champions. -/
def mk_bye (i : ℕ) (t : PRow) : SeedRow :=
  ⟨i, t.team, t.rank, t.conf_champ, true, t.composite_score⟩

/-- A non-bye row: the champion label is kept when the team is an auto-bid
champion and set to `"No"` otherwise (bracket.py line 211). -/
def mk_non_bye (auto_names : List ℕ) (i : ℕ) (t : PRow) : SeedRow :=
  ⟨i, t.team, t.rank, if decide (t.team ∈ auto_names) then t.conf_champ else "No",
    false, t.composite_score⟩

/-- Seeds the bye rows with the running seed counter. -/
def seed_byes : ℕ → List PRow → List SeedRow
  | _, [] => []
  | i, t :: ts => mk_bye i t :: seed_byes (i + 1) ts

/-- Seeds the remaining rows with the running seed counter. -/
def seed_rest (auto_names : List ℕ) : ℕ → List PRow → List SeedRow
  | _, [] => []
  | i, t :: ts => mk_non_bye auto_names i t :: seed_rest auto_names (i + 1) ts

/-- Embedding of `seed_playoff_teams` (bracket.py lines 148-217). -/
def seed_playoff_teams (playoff_teams auto_bid_teams : List PRow) : List SeedRow :=
  let auto_names := auto_bid_teams.map (·.team)
  let sorted_teams := insertionSort by_rank playoff_teams
  let champs_in_playoff := sorted_teams.filter (fun t => decide (t.team ∈ auto_names))
  let top_4 := champs_in_playoff.take 4
  let top_4_names := top_4.map (·.team)
  let remaining := sorted_teams.filter (fun t => !(decide (t.team ∈ top_4_names)))
  seed_byes 1 top_4 ++ seed_rest auto_names (top_4.length + 1) remaining

/-- Participant descriptor: a seeded team or a placeholder label such as
`"Winner 8/9"` (the source uses plain strings for both). -/
inductive TeamRef where
  | name (t : ℕ)
  | winner_label (s : String)
deriving DecidableEq

/-- Embedding of the `BracketMatchup` dataclass. -/
structure BracketMatchup where
  round : String
  game_num : ℕ
  seed_high : ℕ
  seed_low : ℕ
  team_high : ℕ
  team_low : TeamRef
  is_bye : Bool
  host_team : Option ℕ
  location : String
deriving DecidableEq

/-- First row with the given seed
(`seeded_df[seeded_df['seed'] == s].iloc[0]`, `none` models the raised
IndexError when the seed is absent). -/
def find_seed (df : List SeedRow) (s : ℕ) : Option SeedRow :=
  df.find? (fun r => r.seed == s)

/-- A first-round matchup: the higher seed (lower number) hosts on campus. -/
def first_round_game (i s_high s_low : ℕ) (th tl : SeedRow) : BracketMatchup :=
  ⟨"First Round", i, s_high, s_low, th.team, .name tl.team, false, some th.team,
    "Campus of higher seed"⟩

/-- A quarterfinal matchup against a winner placeholder at a neutral site. -/
def quarterfinal_game (i seed : ℕ) (ts : SeedRow) (lbl : String) : BracketMatchup :=
  ⟨"Quarterfinals", i, seed, 0, ts.team, .winner_label lbl, false, none,
    "Bowl Game (Neutral Site)"⟩

/-- Embedding of `create_bracket_matchups` (bracket.py lines 220-300).  The
source returns `(first_round, all_rounds)` where `all_rounds` is a dict
holding the same first-round list plus the quarterfinal list; this is
collapsed to the pair (first round, quarterfinals). -/
def create_bracket_matchups (df : List SeedRow) :
    Option (List BracketMatchup × List BracketMatchup) := do
  let t5 ← find_seed df 5
  let t12 ← find_seed df 12
  let t6 ← find_seed df 6
  let t11 ← find_seed df 11
  let t7 ← find_seed df 7
  let t10 ← find_seed df 10
  let t8 ← find_seed df 8
  let t9 ← find_seed df 9
  let q1 ← find_seed df 1
  let q2 ← find_seed df 2
  let q3 ← find_seed df 3
  let q4 ← find_seed df 4
  let first_round := [first_round_game 1 5 12 t5 t12, first_round_game 2 6 11 t6 t11,
    first_round_game 3 7 10 t7 t10, first_round_game 4 8 9 t8 t9]
  let quarterfinals := [quarterfinal_game 1 1 q1 "Winner 8/9",
    quarterfinal_game 2 2 q2 "Winner 7/10", quarterfinal_game 3 3 q3 "Winner 6/11",
    quarterfinal_game 4 4 q4 "Winner 5/12"]
  return (first_round, quarterfinals)

/-- Structured counterpart of the human-readable tiebreak reason strings. -/
inductive TbReason where
  | score_margin (d : ℚ)
  | head_to_head (winner : ℕ)
  | sos_rank (lo hi : ℕ)
  | sor_rank (lo hi : ℕ)
  | marginal
deriving DecidableEq

/-- Head-to-head games between two teams, in log order. -/
def h2h_games (games : List Game) (a b : ℕ) : List Game :=
  games.filter (fun gm => decide ((gm.home_team = a ∧ gm.away_team = b) ∨
    (gm.home_team = b ∧ gm.away_team = a)))

/-- Winner of one game as the tiebreaker reads it: home team on a strictly
higher home score, away team otherwise. -/
def game_winner (gm : Game) : ℕ :=
  if gm.away_score < gm.home_score then gm.home_team else gm.away_team

/-- Embedding of `apply_tiebreaker` (bracket.py lines 884-969).  The
head-to-head loop returns the winner of the first matchup whose winner is
one of the two teams (which the filter makes true of every matchup). -/
def apply_tiebreaker (team_a team_b : PRow) (games : List Game)
    (sos_ranks sor_ranks : List (ℕ × ℕ)) (tolerance : ℚ) : ℕ × TbReason :=
  let score_diff := |team_a.composite_score - team_b.composite_score|
  if tolerance ≤ score_diff then
    (if team_b.composite_score < team_a.composite_score then team_a.team else team_b.team,
      .score_margin score_diff)
  else
    match (h2h_games games team_a.team team_b.team).find?
        (fun gm => game_winner gm == team_a.team || game_winner gm == team_b.team) with
    | some gm => (game_winner gm, .head_to_head (game_winner gm))
    | none =>
      let sos_a := lookupD sos_ranks team_a.team 999
      let sos_b := lookupD sos_ranks team_b.team 999
      if sos_a ≠ sos_b then
        (if sos_a < sos_b then team_a.team else team_b.team,
          .sos_rank (min sos_a sos_b) (max sos_a sos_b))
      else
        let sor_a := lookupD sor_ranks team_a.team 999
        let sor_b := lookupD sor_ranks team_b.team 999
        if sor_a ≠ sor_b then
          (if sor_a < sor_b then team_a.team else team_b.team,
            .sor_rank (min sor_a sor_b) (max sor_a sor_b))
        else
          (if team_b.composite_score < team_a.composite_score then team_a.team
            else team_b.team, .marginal)

/-- C7: when the composite scores differ by at least the tolerance the
higher-scoring team wins immediately, with a result independent of the
game log and rank dicts (they are arbitrary in the statement); below the
tolerance, if the two teams met, the winner of the first decisive
head-to-head matchup in log order is returned with a head-to-head reason. -/
theorem c7_tiebreaker :
    (∀ (team_a team_b : PRow) (games : List Game)
        (sos_ranks sor_ranks : List (ℕ × ℕ)) (tolerance : ℚ),
      tolerance ≤ |team_a.composite_score - team_b.composite_score| →
      (team_b.composite_score < team_a.composite_score →
        apply_tiebreaker team_a team_b games sos_ranks sor_ranks tolerance
          = (team_a.team,
              .score_margin |team_a.composite_score - team_b.composite_score|))
      ∧ (team_a.composite_score < team_b.composite_score →
        apply_tiebreaker team_a team_b games sos_ranks sor_ranks tolerance
          = (team_b.team,
              .score_margin |team_a.composite_score - team_b.composite_score|)))
  ∧ (∀ (team_a team_b : PRow) (games : List Game)
        (sos_ranks sor_ranks : List (ℕ × ℕ)) (tolerance : ℚ) (gm : Game)
        (rest : List Game),
      |team_a.composite_score - team_b.composite_score| < tolerance →
      h2h_games games team_a.team team_b.team = gm :: rest →
      apply_tiebreaker team_a team_b games sos_ranks sor_ranks tolerance
        = (game_winner gm, .head_to_head (game_winner gm))) := by
  constructor
  · intro a b games sos sor tol htol
    constructor
    · intro hab
      unfold apply_tiebreaker
      rw [if_pos htol, if_pos hab]
    · intro hba
      unfold apply_tiebreaker
      rw [if_pos htol, if_neg (not_lt.mpr (le_of_lt hba))]
  · intro a b games sos sor tol gm rest hlt hh
    have hgm : gm ∈ h2h_games games a.team b.team := hh ▸ List.mem_cons_self gm rest
    have hmatch := List.of_mem_filter hgm
    simp only [decide_eq_true_eq] at hmatch
    have hwin : game_winner gm = a.team ∨ game_winner gm = b.team := by
      unfold game_winner
      by_cases hc : gm.away_score < gm.home_score
      · rcases hmatch with ⟨h1, _⟩ | ⟨h1, _⟩
        · left; rw [if_pos hc, h1]
        · right; rw [if_pos hc, h1]
      · rcases hmatch with ⟨_, h2⟩ | ⟨_, h2⟩
        · right; rw [if_neg hc, h2]
        · left; rw [if_neg hc, h2]
    have hfind : (h2h_games games a.team b.team).find?
        (fun g => game_winner g == a.team || game_winner g == b.team) = some gm := by
      rw [hh]
      apply List.find?_cons_of_pos
      rcases hwin with h | h <;> simp [h]
    unfold apply_tiebreaker
    rw [if_neg (not_le.mpr hlt), hfind]

/-- C7 witness: the immediate score decision at 0.80 vs 0.50 (with a
head-to-head game present that is not consulted) and the head-to-head
decision at 0.800 vs 0.795. -/
theorem c7_tiebreaker_witness :
    apply_tiebreaker ⟨1, 10, "No", 4/5⟩ ⟨2, 20, "No", 1/2⟩
        [⟨1, 1, 20, 10, 21, 7, false⟩] [] [] (1/100)
      = (10, .score_margin |(4/5 : ℚ) - 1/2|)
  ∧ apply_tiebreaker ⟨1, 10, "No", 4/5⟩ ⟨2, 20, "No", 159/200⟩
        [⟨1, 1, 10, 20, 21, 7, false⟩] [] [] (1/100)
      = (10, .head_to_head 10) :=
  ⟨(c7_tiebreaker.1 ⟨1, 10, "No", 4/5⟩ ⟨2, 20, "No", 1/2⟩
      [⟨1, 1, 20, 10, 21, 7, false⟩] [] [] (1/100) (by norm_num [abs])).1
      (by norm_num),
    by
      have := c7_tiebreaker.2 ⟨1, 10, "No", 4/5⟩ ⟨2, 20, "No", 159/200⟩
        [⟨1, 1, 10, 20, 21, 7, false⟩] [] [] (1/100) ⟨1, 1, 10, 20, 21, 7, false⟩ []
        (by norm_num [abs]) rfl
      simpa [game_winner] using this⟩

/-- C6: whenever every seed 1-12 is present, `create_bracket_matchups`
returns the fixed first round (5,12), (6,11), (7,10), (8,9) hosted by the
lower seed number, and quarterfinals pairing seed 1 with the winner of
(8,9), seed 2 with (7,10), seed 3 with (6,11) and seed 4 with (5,12). -/
theorem c6_bracket (df : List SeedRow)
    (r1 r2 r3 r4 r5 r6 r7 r8 r9 r10 r11 r12 : SeedRow)
    (h1 : find_seed df 1 = some r1) (h2 : find_seed df 2 = some r2)
    (h3 : find_seed df 3 = some r3) (h4 : find_seed df 4 = some r4)
    (h5 : find_seed df 5 = some r5) (h6 : find_seed df 6 = some r6)
    (h7 : find_seed df 7 = some r7) (h8 : find_seed df 8 = some r8)
    (h9 : find_seed df 9 = some r9) (h10 : find_seed df 10 = some r10)
    (h11 : find_seed df 11 = some r11) (h12 : find_seed df 12 = some r12) :
    create_bracket_matchups df = some
      ([⟨"First Round", 1, 5, 12, r5.team, .name r12.team, false, some r5.team,
          "Campus of higher seed"⟩,
        ⟨"First Round", 2, 6, 11, r6.team, .name r11.team, false, some r6.team,
          "Campus of higher seed"⟩,
        ⟨"First Round", 3, 7, 10, r7.team, .name r10.team, false, some r7.team,
          "Campus of higher seed"⟩,
        ⟨"First Round", 4, 8, 9, r8.team, .name r9.team, false, some r8.team,
          "Campus of higher seed"⟩],
       [⟨"Quarterfinals", 1, 1, 0, r1.team, .winner_label "Winner 8/9", false, none,
          "Bowl Game (Neutral Site)"⟩,
        ⟨"Quarterfinals", 2, 2, 0, r2.team, .winner_label "Winner 7/10", false, none,
          "Bowl Game (Neutral Site)"⟩,
        ⟨"Quarterfinals", 3, 3, 0, r3.team, .winner_label "Winner 6/11", false, none,
          "Bowl Game (Neutral Site)"⟩,
        ⟨"Quarterfinals", 4, 4, 0, r4.team, .winner_label "Winner 5/12", false, none,
          "Bowl Game (Neutral Site)"⟩]) := by
  unfold create_bracket_matchups
  rw [h1, h2, h3, h4, h5, h6, h7, h8, h9, h10, h11, h12]
  rfl

/-- A concrete seeded table with seeds 1-12 used by the bracket witness. -/
def demo_seeds : List SeedRow :=
  [⟨1, 101, 1, "Yes (A)", true, 0⟩, ⟨2, 102, 2, "Yes (B)", true, 0⟩,
   ⟨3, 103, 3, "Yes (C)", true, 0⟩, ⟨4, 104, 4, "Yes (D)", true, 0⟩,
   ⟨5, 105, 5, "No", false, 0⟩, ⟨6, 106, 6, "No", false, 0⟩,
   ⟨7, 107, 7, "No", false, 0⟩, ⟨8, 108, 8, "No", false, 0⟩,
   ⟨9, 109, 9, "No", false, 0⟩, ⟨10, 110, 10, "No", false, 0⟩,
   ⟨11, 111, 11, "No", false, 0⟩, ⟨12, 112, 12, "No", false, 0⟩]

/-- C6 witness: the bracket at the concrete seeded table. -/
theorem c6_bracket_witness :
    create_bracket_matchups demo_seeds = some
      ([⟨"First Round", 1, 5, 12, 105, .name 112, false, some 105,
          "Campus of higher seed"⟩,
        ⟨"First Round", 2, 6, 11, 106, .name 111, false, some 106,
          "Campus of higher seed"⟩,
        ⟨"First Round", 3, 7, 10, 107, .name 110, false, some 107,
          "Campus of higher seed"⟩,
        ⟨"First Round", 4, 8, 9, 108, .name 109, false, some 108,
          "Campus of higher seed"⟩],
       [⟨"Quarterfinals", 1, 1, 0, 101, .winner_label "Winner 8/9", false, none,
          "Bowl Game (Neutral Site)"⟩,
        ⟨"Quarterfinals", 2, 2, 0, 102, .winner_label "Winner 7/10", false, none,
          "Bowl Game (Neutral Site)"⟩,
        ⟨"Quarterfinals", 3, 3, 0, 103, .winner_label "Winner 6/11", false, none,
          "Bowl Game (Neutral Site)"⟩,
        ⟨"Quarterfinals", 4, 4, 0, 104, .winner_label "Winner 5/12", false, none,
          "Bowl Game (Neutral Site)"⟩]) :=
  c6_bracket demo_seeds _ _ _ _ _ _ _ _ _ _ _ _
    rfl rfl rfl rfl rfl rfl rfl rfl rfl rfl rfl rfl

theorem mem_seed_byes (i : ℕ) (l : List PRow) (r : SeedRow)
    (h : r ∈ seed_byes i l) : ∃ j t, t ∈ l ∧ r = mk_bye j t := by
  induction l generalizing i with
  | nil => simp [seed_byes] at h
  | cons t ts ih =>
    simp only [seed_byes, List.mem_cons] at h
    rcases h with h | h
    · exact ⟨i, t, List.mem_cons_self t ts, h⟩
    · obtain ⟨j, u, hu, hr⟩ := ih (i + 1) h
      exact ⟨j, u, List.mem_cons_of_mem t hu, hr⟩

theorem mem_seed_rest (an : List ℕ) (i : ℕ) (l : List PRow) (r : SeedRow)
    (h : r ∈ seed_rest an i l) : ∃ j t, t ∈ l ∧ r = mk_non_bye an j t := by
  induction l generalizing i with
  | nil => simp [seed_rest] at h
  | cons t ts ih =>
    simp only [seed_rest, List.mem_cons] at h
    rcases h with h | h
    · exact ⟨i, t, List.mem_cons_self t ts, h⟩
    · obtain ⟨j, u, hu, hr⟩ := ih (i + 1) h
      exact ⟨j, u, List.mem_cons_of_mem t hu, hr⟩

/-- C5 (amended): in the seeded table, a champion that does not receive a
bye RETAINS its champion label (copied from its input row); only
non-champion rows in seeds 5-12 have the label set to "No". -/
theorem c5_label_retained (playoff_teams auto_bid_teams : List PRow) (r : SeedRow)
    (hr : r ∈ seed_playoff_teams playoff_teams auto_bid_teams)
    (hb : r.is_bye = false) :
    (r.team ∈ auto_bid_teams.map (·.team) →
      ∃ t ∈ playoff_teams, t.team = r.team ∧ r.conf_champ = t.conf_champ)
  ∧ (r.team ∉ auto_bid_teams.map (·.team) → r.conf_champ = "No") := by
  simp only [seed_playoff_teams, List.mem_append] at hr
  rcases hr with hr | hr
  · obtain ⟨j, t, _, rfl⟩ := mem_seed_byes _ _ _ hr
    simp [mk_bye] at hb
  · obtain ⟨j, t, ht, rfl⟩ := mem_seed_rest _ _ _ _ hr
    have htp : t ∈ playoff_teams :=
      (List.perm_insertionSort by_rank playoff_teams).mem_iff.mp
        (List.mem_of_mem_filter ht)
    constructor
    · intro hmem
      refine ⟨t, htp, rfl, ?_⟩
      show (if decide (t.team ∈ auto_bid_teams.map (·.team)) = true
          then t.conf_champ else "No") = t.conf_champ
      rw [if_pos (by simpa using hmem)]
    · intro hmem
      show (if decide (t.team ∈ auto_bid_teams.map (·.team)) = true
          then t.conf_champ else "No") = "No"
      rw [if_neg (by simpa using hmem)]

/-- A 12-team table with five champions (ranks 1, 2, 3, 5, 9) used by the
C5 counterexample and witness. -/
def c5_pts : List PRow :=
  [⟨1, 1, "Yes (A)", 0⟩, ⟨2, 2, "Yes (B)", 0⟩, ⟨3, 3, "Yes (C)", 0⟩,
   ⟨4, 4, "No", 0⟩, ⟨5, 5, "Yes (D)", 0⟩, ⟨6, 6, "No", 0⟩, ⟨7, 7, "No", 0⟩,
   ⟨8, 8, "No", 0⟩, ⟨9, 9, "Yes (E)", 0⟩, ⟨10, 10, "No", 0⟩,
   ⟨11, 11, "No", 0⟩, ⟨12, 12, "No", 0⟩]

/-- The five auto-bid champions of `c5_pts`. -/
def c5_auto : List PRow :=
  [⟨1, 1, "Yes (A)", 0⟩, ⟨2, 2, "Yes (B)", 0⟩, ⟨3, 3, "Yes (C)", 0⟩,
   ⟨5, 5, "Yes (D)", 0⟩, ⟨9, 9, "Yes (E)", 0⟩]

/-- C5 counterexample: the champion ranked 9 is seeded without a bye yet
its champion label still reads "Yes (E)" in the seeded table, so the
champion label is NOT shown only on bye seeds. -/
theorem c5_label_counterexample :
    ¬ (∀ r ∈ seed_playoff_teams c5_pts c5_auto,
        r.is_bye = false → hasYes r.conf_champ = false) := by
  decide

/-- C5 witness: the amended statement at the non-bye champion row of the
concrete table. -/
theorem c5_label_retained_witness :
    ((⟨9, 9, 9, "Yes (E)", false, 0⟩ : SeedRow).team ∈ c5_auto.map (·.team) →
      ∃ t ∈ c5_pts, t.team = (⟨9, 9, 9, "Yes (E)", false, 0⟩ : SeedRow).team ∧
        (⟨9, 9, 9, "Yes (E)", false, 0⟩ : SeedRow).conf_champ = t.conf_champ)
  ∧ ((⟨9, 9, 9, "Yes (E)", false, 0⟩ : SeedRow).team ∉ c5_auto.map (·.team) →
      (⟨9, 9, 9, "Yes (E)", false, 0⟩ : SeedRow).conf_champ = "No") :=
  c5_label_retained c5_pts c5_auto ⟨9, 9, 9, "Yes (E)", false, 0⟩
    (by decide) (by decide)

/-- The 30-row rank-ordered table of the C3 scenario: ranks 1..30 with
arbitrary distinct team names, arbitrary scores, and champion markers
exactly at ranks 1, 3, 4, 9 and 15. -/
def c3_rows (name : ℕ → ℕ) (champ : ℕ → String) (score : ℕ → ℚ) : List PRow :=
  (List.range 30).map (fun i => PRow.mk (i + 1) (name i) (champ i) (score i))

set_option maxHeartbeats 4000000 in
/-- C3: in a 30-team pool whose exactly five champions are ranked
1, 3, 4, 9 and 15, requesting 5 auto + 7 at-large bids yields exactly 12
playoff teams, sets champ_pulled_in, records a displaced team, and the
selected field is exactly the auto and at-large bids sorted by rank and
truncated to 12 (the displacement removes and adds nothing). -/
theorem c3_selector_scenario (name : ℕ → ℕ) (champ : ℕ → String) (score : ℕ → ℚ)
    (hinj : Function.Injective name)
    (hch : ∀ i, hasYes (champ i) = decide ((i + 1) ∈ ([1, 3, 4, 9, 15] : List ℕ))) :
    (select_playoff_field (c3_rows name champ score) 5 7).playoff_teams.length = 12
    ∧ (select_playoff_field (c3_rows name champ score) 5 7).champ_pulled_in = true
    ∧ (select_playoff_field (c3_rows name champ score) 5 7).displaced_team.isSome = true
    ∧ (select_playoff_field (c3_rows name champ score) 5 7).playoff_teams
        = (insertionSort by_rank
            ((select_playoff_field (c3_rows name champ score) 5 7).auto_bids ++
              (select_playoff_field (c3_rows name champ score) 5 7).at_large_bids)).take 12 := by
  have hrows : c3_rows name champ score = [⟨1, name 0, champ 0, score 0⟩, ⟨2, name 1, champ 1, score 1⟩, ⟨3, name 2, champ 2, score 2⟩, ⟨4, name 3, champ 3, score 3⟩, ⟨5, name 4, champ 4, score 4⟩, ⟨6, name 5, champ 5, score 5⟩, ⟨7, name 6, champ 6, score 6⟩, ⟨8, name 7, champ 7, score 7⟩, ⟨9, name 8, champ 8, score 8⟩, ⟨10, name 9, champ 9, score 9⟩, ⟨11, name 10, champ 10, score 10⟩, ⟨12, name 11, champ 11, score 11⟩, ⟨13, name 12, champ 12, score 12⟩, ⟨14, name 13, champ 13, score 13⟩, ⟨15, name 14, champ 14, score 14⟩, ⟨16, name 15, champ 15, score 15⟩, ⟨17, name 16, champ 16, score 16⟩, ⟨18, name 17, champ 17, score 17⟩, ⟨19, name 18, champ 18, score 18⟩, ⟨20, name 19, champ 19, score 19⟩, ⟨21, name 20, champ 20, score 20⟩, ⟨22, name 21, champ 21, score 21⟩, ⟨23, name 22, champ 22, score 22⟩, ⟨24, name 23, champ 23, score 23⟩, ⟨25, name 24, champ 24, score 24⟩, ⟨26, name 25, champ 25, score 25⟩, ⟨27, name 26, champ 26, score 26⟩, ⟨28, name 27, champ 27, score 27⟩, ⟨29, name 28, champ 28, score 28⟩, ⟨30, name 29, champ 29, score 29⟩] := rfl
  have hsorted : Sorted by_rank ([⟨1, name 0, champ 0, score 0⟩, ⟨2, name 1, champ 1, score 1⟩, ⟨3, name 2, champ 2, score 2⟩, ⟨4, name 3, champ 3, score 3⟩, ⟨5, name 4, champ 4, score 4⟩, ⟨6, name 5, champ 5, score 5⟩, ⟨7, name 6, champ 6, score 6⟩, ⟨8, name 7, champ 7, score 7⟩, ⟨9, name 8, champ 8, score 8⟩, ⟨10, name 9, champ 9, score 9⟩, ⟨11, name 10, champ 10, score 10⟩, ⟨12, name 11, champ 11, score 11⟩, ⟨13, name 12, champ 12, score 12⟩, ⟨14, name 13, champ 13, score 13⟩, ⟨15, name 14, champ 14, score 14⟩, ⟨16, name 15, champ 15, score 15⟩, ⟨17, name 16, champ 16, score 16⟩, ⟨18, name 17, champ 17, score 17⟩, ⟨19, name 18, champ 18, score 18⟩, ⟨20, name 19, champ 19, score 19⟩, ⟨21, name 20, champ 20, score 20⟩, ⟨22, name 21, champ 21, score 21⟩, ⟨23, name 22, champ 22, score 22⟩, ⟨24, name 23, champ 23, score 23⟩, ⟨25, name 24, champ 24, score 24⟩, ⟨26, name 25, champ 25, score 25⟩, ⟨27, name 26, champ 26, score 26⟩, ⟨28, name 27, champ 27, score 27⟩, ⟨29, name 28, champ 28, score 28⟩, ⟨30, name 29, champ 29, score 29⟩] : List PRow) := by
    simp [List.sorted_cons, by_rank]
  have hsort := hsorted.insertionSort_eq
  have hchamps : ([⟨1, name 0, champ 0, score 0⟩, ⟨2, name 1, champ 1, score 1⟩, ⟨3, name 2, champ 2, score 2⟩, ⟨4, name 3, champ 3, score 3⟩, ⟨5, name 4, champ 4, score 4⟩, ⟨6, name 5, champ 5, score 5⟩, ⟨7, name 6, champ 6, score 6⟩, ⟨8, name 7, champ 7, score 7⟩, ⟨9, name 8, champ 8, score 8⟩, ⟨10, name 9, champ 9, score 9⟩, ⟨11, name 10, champ 10, score 10⟩, ⟨12, name 11, champ 11, score 11⟩, ⟨13, name 12, champ 12, score 12⟩, ⟨14, name 13, champ 13, score 13⟩, ⟨15, name 14, champ 14, score 14⟩, ⟨16, name 15, champ 15, score 15⟩, ⟨17, name 16, champ 16, score 16⟩, ⟨18, name 17, champ 17, score 17⟩, ⟨19, name 18, champ 18, score 18⟩, ⟨20, name 19, champ 19, score 19⟩, ⟨21, name 20, champ 20, score 20⟩, ⟨22, name 21, champ 21, score 21⟩, ⟨23, name 22, champ 22, score 22⟩, ⟨24, name 23, champ 23, score 23⟩, ⟨25, name 24, champ 24, score 24⟩, ⟨26, name 25, champ 25, score 25⟩, ⟨27, name 26, champ 26, score 26⟩, ⟨28, name 27, champ 27, score 27⟩, ⟨29, name 28, champ 28, score 28⟩, ⟨30, name 29, champ 29, score 29⟩] : List PRow).filter (fun t => hasYes t.conf_champ)
      = [⟨1, name 0, champ 0, score 0⟩, ⟨3, name 2, champ 2, score 2⟩, ⟨4, name 3, champ 3, score 3⟩, ⟨9, name 8, champ 8, score 8⟩, ⟨15, name 14, champ 14, score 14⟩] := by
    simp [hch]
  have hnames : ((([⟨1, name 0, champ 0, score 0⟩, ⟨3, name 2, champ 2, score 2⟩, ⟨4, name 3, champ 3, score 3⟩, ⟨9, name 8, champ 8, score 8⟩, ⟨15, name 14, champ 14, score 14⟩] : List PRow)).take
        (if ([⟨1, name 0, champ 0, score 0⟩, ⟨3, name 2, champ 2, score 2⟩, ⟨4, name 3, champ 3, score 3⟩, ⟨9, name 8, champ 8, score 8⟩, ⟨15, name 14, champ 14, score 14⟩] : List PRow).length < 5 then ([⟨1, name 0, champ 0, score 0⟩, ⟨3, name 2, champ 2, score 2⟩, ⟨4, name 3, champ 3, score 3⟩, ⟨9, name 8, champ 8, score 8⟩, ⟨15, name 14, champ 14, score 14⟩] : List PRow).length else 5)).map
        (·.team) = [name 0, name 2, name 3, name 8, name 14] := rfl
  have heligible : ([⟨1, name 0, champ 0, score 0⟩, ⟨2, name 1, champ 1, score 1⟩, ⟨3, name 2, champ 2, score 2⟩, ⟨4, name 3, champ 3, score 3⟩, ⟨5, name 4, champ 4, score 4⟩, ⟨6, name 5, champ 5, score 5⟩, ⟨7, name 6, champ 6, score 6⟩, ⟨8, name 7, champ 7, score 7⟩, ⟨9, name 8, champ 8, score 8⟩, ⟨10, name 9, champ 9, score 9⟩, ⟨11, name 10, champ 10, score 10⟩, ⟨12, name 11, champ 11, score 11⟩, ⟨13, name 12, champ 12, score 12⟩, ⟨14, name 13, champ 13, score 13⟩, ⟨15, name 14, champ 14, score 14⟩, ⟨16, name 15, champ 15, score 15⟩, ⟨17, name 16, champ 16, score 16⟩, ⟨18, name 17, champ 17, score 17⟩, ⟨19, name 18, champ 18, score 18⟩, ⟨20, name 19, champ 19, score 19⟩, ⟨21, name 20, champ 20, score 20⟩, ⟨22, name 21, champ 21, score 21⟩, ⟨23, name 22, champ 22, score 22⟩, ⟨24, name 23, champ 23, score 23⟩, ⟨25, name 24, champ 24, score 24⟩, ⟨26, name 25, champ 25, score 25⟩, ⟨27, name 26, champ 26, score 26⟩, ⟨28, name 27, champ 27, score 27⟩, ⟨29, name 28, champ 28, score 28⟩, ⟨30, name 29, champ 29, score 29⟩] : List PRow).filter
      (fun t => !(decide (t.team ∈ [name 0, name 2, name 3, name 8, name 14]))) = [⟨2, name 1, champ 1, score 1⟩, ⟨5, name 4, champ 4, score 4⟩, ⟨6, name 5, champ 5, score 5⟩, ⟨7, name 6, champ 6, score 6⟩, ⟨8, name 7, champ 7, score 7⟩, ⟨10, name 9, champ 9, score 9⟩, ⟨11, name 10, champ 10, score 10⟩, ⟨12, name 11, champ 11, score 11⟩, ⟨13, name 12, champ 12, score 12⟩, ⟨14, name 13, champ 13, score 13⟩, ⟨16, name 15, champ 15, score 15⟩, ⟨17, name 16, champ 16, score 16⟩, ⟨18, name 17, champ 17, score 17⟩, ⟨19, name 18, champ 18, score 18⟩, ⟨20, name 19, champ 19, score 19⟩, ⟨21, name 20, champ 20, score 20⟩, ⟨22, name 21, champ 21, score 21⟩, ⟨23, name 22, champ 22, score 22⟩, ⟨24, name 23, champ 23, score 23⟩, ⟨25, name 24, champ 24, score 24⟩, ⟨26, name 25, champ 25, score 25⟩, ⟨27, name 26, champ 26, score 26⟩, ⟨28, name 27, champ 27, score 27⟩, ⟨29, name 28, champ 28, score 28⟩, ⟨30, name 29, champ 29, score 29⟩] := by
    simp [hinj.eq_iff]
  have hsel : select_playoff_field (c3_rows name champ score) 5 7 =
      ⟨(insertionSort by_rank (([⟨1, name 0, champ 0, score 0⟩, ⟨3, name 2, champ 2, score 2⟩, ⟨4, name 3, champ 3, score 3⟩, ⟨9, name 8, champ 8, score 8⟩, ⟨15, name 14, champ 14, score 14⟩] : List PRow) ++ [⟨2, name 1, champ 1, score 1⟩, ⟨5, name 4, champ 4, score 4⟩, ⟨6, name 5, champ 5, score 5⟩, ⟨7, name 6, champ 6, score 6⟩, ⟨8, name 7, champ 7, score 7⟩, ⟨10, name 9, champ 9, score 9⟩, ⟨11, name 10, champ 10, score 10⟩])).take 12,
        [⟨1, name 0, champ 0, score 0⟩, ⟨3, name 2, champ 2, score 2⟩, ⟨4, name 3, champ 3, score 3⟩, ⟨9, name 8, champ 8, score 8⟩, ⟨15, name 14, champ 14, score 14⟩], [⟨2, name 1, champ 1, score 1⟩, ⟨5, name 4, champ 4, score 4⟩, ⟨6, name 5, champ 5, score 5⟩, ⟨7, name 6, champ 6, score 6⟩, ⟨8, name 7, champ 7, score 7⟩, ⟨10, name 9, champ 9, score 9⟩, ⟨11, name 10, champ 10, score 10⟩], some ⟨11, name 10, champ 10, score 10⟩, true⟩ := by
    rw [hrows]
    simp only [select_playoff_field]
    rw [hsort, hchamps, hnames, heligible]
    rfl
  refine ⟨?_, ?_, ?_, ?_⟩
  · rw [hsel]
    show ((insertionSort by_rank (([⟨1, name 0, champ 0, score 0⟩, ⟨3, name 2, champ 2, score 2⟩, ⟨4, name 3, champ 3, score 3⟩, ⟨9, name 8, champ 8, score 8⟩, ⟨15, name 14, champ 14, score 14⟩] : List PRow) ++ [⟨2, name 1, champ 1, score 1⟩, ⟨5, name 4, champ 4, score 4⟩, ⟨6, name 5, champ 5, score 5⟩, ⟨7, name 6, champ 6, score 6⟩, ⟨8, name 7, champ 7, score 7⟩, ⟨10, name 9, champ 9, score 9⟩, ⟨11, name 10, champ 10, score 10⟩])).take 12).length = 12
    rw [List.length_take, (List.perm_insertionSort by_rank _).length_eq]
    rfl
  · rw [hsel]
  · rw [hsel]
    rfl
  · rw [hsel]

/-- Champion marker function used by the C3 witness. -/
def c3_champ_fun (i : ℕ) : String :=
  if (i + 1) ∈ ([1, 3, 4, 9, 15] : List ℕ) then "Yes (X)" else "No"

/-- C3 witness: the scenario instantiated with identity team names. -/
theorem c3_selector_scenario_witness :
    (select_playoff_field (c3_rows (fun i => i) c3_champ_fun (fun _ => 0)) 5 7).playoff_teams.length = 12
    ∧ (select_playoff_field (c3_rows (fun i => i) c3_champ_fun (fun _ => 0)) 5 7).champ_pulled_in = true
    ∧ (select_playoff_field (c3_rows (fun i => i) c3_champ_fun (fun _ => 0)) 5 7).displaced_team.isSome = true
    ∧ (select_playoff_field (c3_rows (fun i => i) c3_champ_fun (fun _ => 0)) 5 7).playoff_teams
        = (insertionSort by_rank
            ((select_playoff_field (c3_rows (fun i => i) c3_champ_fun (fun _ => 0)) 5 7).auto_bids ++
              (select_playoff_field (c3_rows (fun i => i) c3_champ_fun (fun _ => 0)) 5 7).at_large_bids)).take 12 :=
  c3_selector_scenario (fun i => i) c3_champ_fun (fun _ => 0)
    (fun _ _ h => h)
    (fun i => by
      by_cases h : (i + 1) ∈ ([1, 3, 4, 9, 15] : List ℕ)
      · simp only [c3_champ_fun, if_pos h, decide_eq_true h]
        decide
      · simp only [c3_champ_fun, if_neg h, decide_eq_false h]
        decide)

theorem seed_byes_map_seed (i : ℕ) (l : List PRow) :
    (seed_byes i l).map (·.seed) = List.range' i l.length := by
  induction l generalizing i with
  | nil => rfl
  | cons t ts ih => simp [seed_byes, mk_bye, List.range'_succ, ih]

theorem seed_byes_map_rank (i : ℕ) (l : List PRow) :
    (seed_byes i l).map (·.rank) = l.map (·.rank) := by
  induction l generalizing i with
  | nil => rfl
  | cons t ts ih => simp [seed_byes, mk_bye, ih]

theorem seed_byes_map_team (i : ℕ) (l : List PRow) :
    (seed_byes i l).map (·.team) = l.map (·.team) := by
  induction l generalizing i with
  | nil => rfl
  | cons t ts ih => simp [seed_byes, mk_bye, ih]

theorem seed_byes_length (i : ℕ) (l : List PRow) :
    (seed_byes i l).length = l.length := by
  induction l generalizing i with
  | nil => rfl
  | cons t ts ih => simp [seed_byes, ih]

theorem seed_rest_map_seed (an : List ℕ) (i : ℕ) (l : List PRow) :
    (seed_rest an i l).map (·.seed) = List.range' i l.length := by
  induction l generalizing i with
  | nil => rfl
  | cons t ts ih => simp [seed_rest, mk_non_bye, List.range'_succ, ih]

theorem seed_rest_map_rank (an : List ℕ) (i : ℕ) (l : List PRow) :
    (seed_rest an i l).map (·.rank) = l.map (·.rank) := by
  induction l generalizing i with
  | nil => rfl
  | cons t ts ih => simp [seed_rest, mk_non_bye, ih]

theorem seed_rest_map_team (an : List ℕ) (i : ℕ) (l : List PRow) :
    (seed_rest an i l).map (·.team) = l.map (·.team) := by
  induction l generalizing i with
  | nil => rfl
  | cons t ts ih => simp [seed_rest, mk_non_bye, ih]

theorem seed_rest_length (an : List ℕ) (i : ℕ) (l : List PRow) :
    (seed_rest an i l).length = l.length := by
  induction l generalizing i with
  | nil => rfl
  | cons t ts ih => simp [seed_rest, ih]

theorem filter_names_of_sublist {S l : List PRow} (hs : S <+ l) :
    (l.map (·.team)).Nodup →
    l.filter (fun t => decide (t.team ∈ S.map (·.team))) = S := by
  induction hs with
  | slnil => intro _; rfl
  | @cons l₁ l₂ a hs ih =>
    intro hnd
    simp only [List.map_cons, List.nodup_cons] at hnd
    have ha : a.team ∉ l₁.map (·.team) := fun hmem =>
      hnd.1 ((List.Sublist.map (·.team) hs).subset hmem)
    rw [List.filter_cons, if_neg (by simpa using ha)]
    exact ih hnd.2
  | @cons₂ l₁ l₂ a hs ih =>
    intro hnd
    simp only [List.map_cons, List.nodup_cons] at hnd
    have hcong : l₂.filter (fun t => decide (t.team ∈ (a :: l₁).map (·.team)))
        = l₂.filter (fun t => decide (t.team ∈ l₁.map (·.team))) := by
      apply List.filter_congr
      intro x hx
      have hxa : x.team ≠ a.team := fun he =>
        hnd.1 (he ▸ List.mem_map_of_mem (·.team) hx)
      simp [hxa]
    rw [List.filter_cons, if_pos (by simp), hcong, ih hnd.2]

theorem perm_filter_split (l : List PRow) (p : PRow → Bool) :
    l ~ l.filter p ++ l.filter (fun x => !(p x)) := by
  induction l with
  | nil => rfl
  | cons a l ih =>
    by_cases h : p a
    · rw [List.filter_cons, List.filter_cons]
      simp only [h, Bool.not_true, if_true, if_false, ite_false, ite_true]
      exact ih.cons a
    · rw [List.filter_cons, List.filter_cons]
      simp only [h, Bool.not_false, ite_false, ite_true, if_true, if_false]
      exact (ih.cons a).trans List.perm_middle.symm

/-- C4: when the 12 teams passed to the seeder include at least 4 auto-bid
champions, seeds 1-4 go to the four highest-ranked champions in rank order
with a bye, and seeds 5-12 go to the remaining eight teams in ascending
rank order without a bye, regardless of champion status; no team is added
or removed. -/
theorem c4_seeding (playoff_teams auto_bid_teams : List PRow)
    (hlen : playoff_teams.length = 12)
    (hnames : (playoff_teams.map (·.team)).Nodup)
    (hchamps : 4 ≤ (playoff_teams.filter
      (fun t => decide (t.team ∈ auto_bid_teams.map (·.team)))).length) :
    (seed_playoff_teams playoff_teams auto_bid_teams).map (·.seed) = List.range' 1 12
    ∧ (∀ r ∈ (seed_playoff_teams playoff_teams auto_bid_teams).take 4,
        r.is_bye = true ∧ r.team ∈ auto_bid_teams.map (·.team))
    ∧ (∀ r ∈ (seed_playoff_teams playoff_teams auto_bid_teams).drop 4, r.is_bye = false)
    ∧ ((seed_playoff_teams playoff_teams auto_bid_teams).take 4).map (·.rank)
        = (insertionSort (· ≤ ·) ((playoff_teams.filter
            (fun t => decide (t.team ∈ auto_bid_teams.map (·.team)))).map (·.rank))).take 4
    ∧ Sorted (· ≤ ·)
        (((seed_playoff_teams playoff_teams auto_bid_teams).drop 4).map (·.rank))
    ∧ ((seed_playoff_teams playoff_teams auto_bid_teams).map (·.team)).Perm
        (playoff_teams.map (·.team)) := by
  have hperm : insertionSort by_rank playoff_teams ~ playoff_teams :=
    List.perm_insertionSort by_rank playoff_teams
  have hsorted : Sorted by_rank (insertionSort by_rank playoff_teams) :=
    List.sorted_insertionSort by_rank playoff_teams
  have hnd2 : ((insertionSort by_rank playoff_teams).map (·.team)).Nodup :=
    ((hperm.map (·.team)).nodup_iff).mpr hnames
  simp only [seed_playoff_teams]
  set sortedT := insertionSort by_rank playoff_teams with hsortedT
  set champs := sortedT.filter
    (fun t => decide (t.team ∈ auto_bid_teams.map (·.team))) with hchampsdef
  set top4 := champs.take 4 with htop4
  set remaining := sortedT.filter
    (fun t => !(decide (t.team ∈ top4.map (·.team)))) with hremdef
  have hchlen : 4 ≤ champs.length := by
    rw [hchampsdef,
      (hperm.filter (fun t => decide (t.team ∈ auto_bid_teams.map (·.team)))).length_eq]
    exact hchamps
  have htop4len : top4.length = 4 := by
    rw [htop4, List.length_take]
    exact min_eq_left hchlen
  have htop4sub : top4 <+ sortedT :=
    (List.take_sublist 4 champs).trans (List.filter_sublist sortedT)
  have hfiltertop4 : sortedT.filter (fun t => decide (t.team ∈ top4.map (·.team)))
      = top4 := filter_names_of_sublist htop4sub hnd2
  have hsplit : sortedT ~ top4 ++ remaining := by
    have h := perm_filter_split sortedT (fun t => decide (t.team ∈ top4.map (·.team)))
    rw [hfiltertop4] at h
    exact h
  have hremlen : remaining.length = 8 := by
    have h12 : sortedT.length = 12 := by rw [hperm.length_eq, hlen]
    have h := hsplit.length_eq
    rw [List.length_append, htop4len, h12] at h
    omega
  have htake : (seed_byes 1 top4 ++
      seed_rest (auto_bid_teams.map (·.team)) (top4.length + 1) remaining).take 4
      = seed_byes 1 top4 := by
    have h4 : (4 : ℕ) = (seed_byes 1 top4).length := by
      rw [seed_byes_length, htop4len]
    rw [h4]
    exact List.take_left _ _
  have hdrop : (seed_byes 1 top4 ++
      seed_rest (auto_bid_teams.map (·.team)) (top4.length + 1) remaining).drop 4
      = seed_rest (auto_bid_teams.map (·.team)) (top4.length + 1) remaining := by
    have h4 : (4 : ℕ) = (seed_byes 1 top4).length := by
      rw [seed_byes_length, htop4len]
    rw [h4]
    exact List.drop_left _ _
  have hremsorted : Sorted by_rank remaining := by
    rw [hremdef]
    exact hsorted.filter _
  have hchsorted : Sorted by_rank champs := by
    rw [hchampsdef]
    exact hsorted.filter _
  refine ⟨?_, ?_, ?_, ?_, ?_, ?_⟩
  · rw [List.map_append, seed_byes_map_seed, seed_rest_map_seed, htop4len, hremlen]
    rfl
  · intro r hr
    rw [htake] at hr
    obtain ⟨j, t, ht, rfl⟩ := mem_seed_byes _ _ _ hr
    refine ⟨rfl, ?_⟩
    show t.team ∈ auto_bid_teams.map (·.team)
    have htchamps : t ∈ champs := (List.take_sublist 4 champs).subset ht
    rw [hchampsdef] at htchamps
    simpa using List.of_mem_filter htchamps
  · intro r hr
    rw [hdrop] at hr
    obtain ⟨j, t, ht, rfl⟩ := mem_seed_rest _ _ _ _ hr
    rfl
  · rw [htake, seed_byes_map_rank, htop4, List.map_take]
    have heq : champs.map (·.rank) = insertionSort (· ≤ ·)
        ((playoff_teams.filter
          (fun t => decide (t.team ∈ auto_bid_teams.map (·.team)))).map (·.rank)) := by
      exact @List.eq_of_perm_of_sorted ℕ (· ≤ ·) inferInstance _ _
        (((hperm.filter _).map (·.rank)).trans
          (List.perm_insertionSort (· ≤ ·) _).symm)
        (List.pairwise_map.mpr
          (hchsorted.imp (fun h => h)))
        (List.sorted_insertionSort (· ≤ ·) _)
    rw [heq]
  · rw [hdrop, seed_rest_map_rank]
    exact List.pairwise_map.mpr (hremsorted.imp (fun h => h))
  · rw [List.map_append, seed_byes_map_team, seed_rest_map_team]
    have h := hsplit.map (·.team)
    rw [List.map_append] at h
    exact h.symm.trans (hperm.map (·.team))

/-- A 12-team field with champions ranked 1, 2, 3 and 5, for the C4 witness. -/
def c4_pts : List PRow :=
  [⟨1, 1, "Yes (A)", 0⟩, ⟨2, 2, "Yes (B)", 0⟩, ⟨3, 3, "Yes (C)", 0⟩,
   ⟨4, 4, "No", 0⟩, ⟨5, 5, "Yes (D)", 0⟩, ⟨6, 6, "No", 0⟩, ⟨7, 7, "No", 0⟩,
   ⟨8, 8, "No", 0⟩, ⟨9, 9, "No", 0⟩, ⟨10, 10, "No", 0⟩, ⟨11, 11, "No", 0⟩,
   ⟨12, 12, "No", 0⟩]

/-- The four auto-bid champions of `c4_pts`. -/
def c4_auto : List PRow :=
  [⟨1, 1, "Yes (A)", 0⟩, ⟨2, 2, "Yes (B)", 0⟩, ⟨3, 3, "Yes (C)", 0⟩,
   ⟨5, 5, "Yes (D)", 0⟩]

/-- C4 witness: the seeding conclusions at the concrete field whose
champions are ranked 1, 2, 3 and 5. -/
theorem c4_seeding_witness :
    (seed_playoff_teams c4_pts c4_auto).map (·.seed) = List.range' 1 12
    ∧ (∀ r ∈ (seed_playoff_teams c4_pts c4_auto).take 4,
        r.is_bye = true ∧ r.team ∈ c4_auto.map (·.team))
    ∧ (∀ r ∈ (seed_playoff_teams c4_pts c4_auto).drop 4, r.is_bye = false)
    ∧ ((seed_playoff_teams c4_pts c4_auto).take 4).map (·.rank)
        = (insertionSort (· ≤ ·) ((c4_pts.filter
            (fun t => decide (t.team ∈ c4_auto.map (·.team)))).map (·.rank))).take 4
    ∧ Sorted (· ≤ ·) (((seed_playoff_teams c4_pts c4_auto).drop 4).map (·.rank))
    ∧ ((seed_playoff_teams c4_pts c4_auto).map (·.team)).Perm (c4_pts.map (·.team)) :=
  c4_seeding c4_pts c4_auto (by decide) (by decide) (by decide)
